import Mathlib

/-!
Shallow embedding of `tarkus-env-manager` (file `src/index.ts`).

The library is a thin wrapper around the zod validation library:

* `EnvironmentManager<T extends ZodType>` stores a schema and eagerly runs
  `validateEnv()` in its constructor.
* `check()` requires the schema to be a `ZodObject`; it collects every
  declared key that is absent from `process.env` or bound to the empty
  string, and throws a message listing them; a non-object schema makes it
  throw a fixed configuration message.
* `validateEnv()` and `getEnv()` both run `schema.safeParse(process.env)`
  and throw `Invalid environment variables: ...` on failure; `getEnv()`
  returns the parsed data on success.

The ambient `process.env` object is modelled as an explicit argument
`Env := String → Option String` (the JS object maps names to string
values; `none` models an absent key).  zod is external library code; the
fragment of it this package exercises (object schemas over string fields
with optional default, refinement checks such as `.url()` or enums,
`transform` to boolean via equality with "true", and `transform` by
comma-split-and-trim) is embedded by the `FieldType` / `Schema` types and
the `safeParse` function below.  Schemas that are not `ZodObject` are
abstracted by the predicate telling whether `safeParse` succeeds on a
given input.  The serialization `JSON.stringify(parsed.error.errors)` of
the zod issue list is modelled by rendering the list of failing field
names.  Thrown `Error` objects are modelled by the structured type
`EnvError` together with `EnvError.render`, which produces the exact
message string the TypeScript code builds.
-/

/-- The environment snapshot: `process.env`, a map from variable names to
raw string values. -/
def Env : Type := String → Option String

/-- A value produced by zod parsing as used by this package: plain
strings, booleans produced by a transform, and string arrays produced by
a comma-split transform. -/
inductive Value where
  | str (s : String)
  | bool (b : Bool)
  | list (xs : List String)
deriving DecidableEq, Repr

/-- The field schemas this package is used with (see the README schema):
`z.string()`, a string with a refinement check such as `.url()` or an
enum membership test (abstracted by the Boolean predicate), a string
transformed to a boolean by comparison with "true" and piped through
`z.boolean()`, and a string transformed by comma-split plus trim. -/
inductive FieldType where
  | str
  | strCheck (ok : String → Bool)
  | strToBool
  | strToList

/-- One declared field of a `ZodObject` shape: its name, its field type,
and its optional default raw value (`z.string().default(d)`). -/
abbrev SField : Type := String × FieldType × Option String

/-- A zod schema as the package can receive it: either a `ZodObject`
with its ordered list of declared fields, or any other zod schema,
abstracted by the predicate telling whether `safeParse` succeeds on a
given environment snapshot. -/
inductive Schema where
  | object (fields : List SField)
  | nonObject (accepts : Env → Bool)

/-- The data returned by a successful `safeParse`: for an object schema
the mapping from field names to parsed values, for any other schema an
opaque result (never inspected by this package). -/
inductive ParsedData where
  | obj (kvs : List (String × Value))
  | other
deriving DecidableEq, Repr

/-- The errors `src/index.ts` can throw, in structured form. -/
inductive EnvError where
  | missingVars (keys : List String)
  | schemaNotObject
  | invalidEnv (issues : List String)
deriving DecidableEq, Repr

/-- The exact message string carried by each thrown `Error`.  The zod
issue serialization `JSON.stringify(parsed.error.errors)` is modelled as
the semicolon-joined list of failing field names. -/
def EnvError.render : EnvError → String
  | EnvError.missingVars keys =>
      "❌ Failed - Missing env vars - " ++ String.intercalate ", " keys
  | EnvError.schemaNotObject =>
      "Schema must be an object type (z.object())."
  | EnvError.invalidEnv issues =>
      "Invalid environment variables: " ++ String.intercalate "; " issues

/-- The test `!(key in process.env) || process.env[key] === ''` from
`check()`. -/
def isMissingKey (env : Env) (k : String) : Bool :=
  (env k).isNone || env k == some ""

/-- zod parsing of one raw string by a field type: a plain string always
succeeds, a refinement check must hold, the boolean transform compares
with "true" (the subsequent `.pipe(z.boolean())` always succeeds on the
resulting boolean), and the list transform splits on commas and trims
each piece. -/
def parseType : FieldType → String → Option Value
  | FieldType.str, v => some (Value.str v)
  | FieldType.strCheck ok, v => if ok v then some (Value.str v) else none
  | FieldType.strToBool, v => some (Value.bool (v == "true"))
  | FieldType.strToList, v =>
      some (Value.list ((v.splitOn ",").map (fun b => b.trim)))

/-- zod parsing of one declared field against its raw input: an absent
key uses the declared default when there is one and is a `required`
issue otherwise; a present raw string goes through the field type. -/
def parseField (ft : FieldType) (dflt : Option String) (raw : Option String) :
    Option Value :=
  match raw with
  | some v => parseType ft v
  | none =>
      match dflt with
      | some d => parseType ft d
      | none => none

/-- zod object parsing: each declared field is parsed from the snapshot
in declaration order; the first component collects the names of all
failing fields (zod gathers every issue), the second the successfully
parsed key/value pairs. -/
def parseFields : List SField → Env → List String × List (String × Value)
  | [], _ => ([], [])
  | f :: rest, env =>
      let r := parseFields rest env
      match parseField f.2.1 f.2.2 (env f.1) with
      | some v => (r.1, (f.1, v) :: r.2)
      | none => (f.1 :: r.1, r.2)

/-- `schema.safeParse(process.env)`: an object schema succeeds exactly
when no declared field fails, returning the parsed mapping; any other
schema succeeds according to its abstract predicate (its issue list is
modelled as the single root-path issue). -/
def safeParse : Schema → Env → Except (List String) ParsedData
  | Schema.object fields, env =>
      let r := parseFields fields env
      if r.1.isEmpty then Except.ok (ParsedData.obj r.2) else Except.error r.1
  | Schema.nonObject accepts, env =>
      if accepts env then Except.ok ParsedData.other else Except.error [""]

/-- The manager class: its only instance state is the stored schema. -/
structure EnvironmentManager where
  schema : Schema

/-- The private `validateEnv()` method: runs `safeParse` on the snapshot
and throws `Invalid environment variables: ...` on failure. -/
def EnvironmentManager.validateEnv (m : EnvironmentManager) (env : Env) :
    Except EnvError Unit :=
  match safeParse m.schema env with
  | Except.ok _ => Except.ok ()
  | Except.error issues => Except.error (EnvError.invalidEnv issues)

/-- The constructor `new EnvironmentManager(schema)`: stores the schema
and immediately runs `validateEnv()`, aborting construction on failure. -/
def EnvironmentManager.construct (schema : Schema) (env : Env) :
    Except EnvError EnvironmentManager :=
  let m : EnvironmentManager := ⟨schema⟩
  match m.validateEnv env with
  | Except.ok _ => Except.ok m
  | Except.error e => Except.error e

/-- The `check()` method: requires the stored schema to be a `ZodObject`
(else throws the fixed configuration message), then collects every
declared key that is absent from the snapshot or bound to the empty
string, in declaration order, and throws the listing message when the
collection is non-empty. -/
def EnvironmentManager.check (m : EnvironmentManager) (env : Env) :
    Except EnvError Unit :=
  match m.schema with
  | Schema.object fields =>
      let schemaKeys := fields.map Prod.fst
      let missingKeys := schemaKeys.filter (fun k => isMissingKey env k)
      if missingKeys.length > 0 then
        Except.error (EnvError.missingVars missingKeys)
      else
        Except.ok ()
  | Schema.nonObject _ => Except.error EnvError.schemaNotObject

/-- The `getEnv()` method: runs `safeParse` on the snapshot, throws
`Invalid environment variables: ...` on failure, and returns the parsed
data on success. -/
def EnvironmentManager.getEnv (m : EnvironmentManager) (env : Env) :
    Except EnvError ParsedData :=
  match safeParse m.schema env with
  | Except.ok d => Except.ok d
  | Except.error issues => Except.error (EnvError.invalidEnv issues)

/-- The observable ambient state the TypeScript code can reach: the
process environment and a constructed manager instance. -/
structure PState where
  procEnv : Env
  mgr : EnvironmentManager

/-- State-passing embedding of a `check()` call: the method body only
reads `process.env` and `this.schema` and performs no assignment, so the
state is returned unchanged alongside the result. -/
def checkS (st : PState) : Except EnvError Unit × PState :=
  (st.mgr.check st.procEnv, st)

/-- State-passing embedding of a `getEnv()` call: the method body only
reads `process.env` and `this.schema` and performs no assignment, so the
state is returned unchanged alongside the result. -/
def getEnvS (st : PState) : Except EnvError ParsedData × PState :=
  (st.mgr.getEnv st.procEnv, st)

/-- State-passing embedding of a `new EnvironmentManager(schema)` call:
the constructor writes only the fresh instance field `this.schema` and
reads `process.env`, so the ambient state is returned unchanged. -/
def constructS (schema : Schema) (st : PState) :
    Except EnvError EnvironmentManager × PState :=
  (EnvironmentManager.construct schema st.procEnv, st)

/-- Splitting a character list at every occurrence of a separator
character (structural-recursion helper for the spec-modelled dotenv
parser). -/
def splitOnChar (c : Char) : List Char → List (List Char)
  | [] => [[]]
  | ch :: rest =>
      let r := splitOnChar c rest
      if ch == c then [] :: r
      else
        match r with
        | [] => [[ch]]
        | g :: gs => (ch :: g) :: gs

/-- Splitting a character list at the first equals sign, when there is
one (structural-recursion helper for the spec-modelled dotenv parser). -/
def splitAtEq : List Char → Option (List Char × List Char)
  | [] => none
  | c :: rest =>
      if c == '=' then some ([], rest)
      else
        match splitAtEq rest with
        | none => none
        | some (k, v) => some (c :: k, v)

/-- Modelled from the spec: the dotenv line format, missing from
`src/index.ts` (the file never imports or invokes dotenv although the
README and the spec state that the `.env` file is loaded automatically
at startup).  One `KEY=VALUE` assignment per line, `#`-prefixed comment
lines ignored, blank lines ignored. -/
def parseDotenvLine (line : List Char) : Option (String × String) :=
  match line with
  | [] => none
  | c :: _ =>
      if c == '#' then none
      else
        match splitAtEq line with
        | none => none
        | some (k, v) => some (String.mk k, String.mk v)

/-- Modelled from the spec: the parsed content of a `.env` file, missing
from `src/index.ts`, as the association list of its assignments, line by
line. -/
def parseDotenv (content : String) : List (String × String) :=
  (splitOnChar (Char.ofNat 10) content.data).filterMap parseDotenvLine

/-- Modelled from the spec: the environment snapshot the spec says the
manager sees after startup, missing from `src/index.ts` — the real
process environment overlaid on the `.env` file content, with the real
process environment taking precedence on keys present in both. -/
def specSnapshot (procEnv : Env) (fileContent : String) : Env :=
  fun k =>
    match procEnv k with
    | some v => some v
    | none => (parseDotenv fileContent).lookup k

/-- Concrete fixture: a three-field plain-string object schema. -/
def fieldsABC : List SField :=
  [("A", FieldType.str, none), ("B", FieldType.str, none),
   ("C", FieldType.str, none)]

/-- Concrete fixture: a snapshot with `A` absent, `B` bound to a
non-empty string and `C` bound to the empty string. -/
def envABC : Env :=
  fun k => if k = "B" then some "x" else if k = "C" then some "" else none

/-- Concrete fixture: the README scenario schema — `PORT` a string with
default "8016", `DEBUG` a string transformed to a boolean. -/
def fieldsPD : List SField :=
  [("PORT", FieldType.str, some "8016"), ("DEBUG", FieldType.strToBool, none)]

/-- Concrete fixture: a snapshot binding only `DEBUG` to "true". -/
def envPD : Env :=
  fun k => if k = "DEBUG" then some "true" else none

/-- Concrete fixture: a one-field object schema declaring `HOST`. -/
def fieldsHOST : List SField :=
  [("HOST", FieldType.str, none)]

/-! ### Helper lemmas -/

/-- Unfolding of `check()` on an object schema. -/
theorem check_object_eq (fields : List SField) (env : Env) :
    EnvironmentManager.check ⟨Schema.object fields⟩ env =
      (if ((fields.map Prod.fst).filter (fun k => isMissingKey env k)).length > 0
       then Except.error (EnvError.missingVars
              ((fields.map Prod.fst).filter (fun k => isMissingKey env k)))
       else Except.ok ()) := rfl

/-! ### Claims -/

/-- Claim C1: the spec and the README state that the optional `.env`
file is loaded into the snapshot at startup, the real process
environment taking precedence.  `src/index.ts` never imports or invokes
dotenv, so the snapshot every operation sees is the bare process
environment: with an empty process environment and a `.env` file
containing `PORT=3000`, the snapshot the claim describes makes
`check()` succeed, while the code as written throws the missing-vars
error for `PORT`. -/
theorem c1_dotenv_never_loaded :
    EnvironmentManager.check ⟨Schema.object [("PORT", FieldType.str, none)]⟩
        (specSnapshot (fun _ => none) "PORT=3000") = Except.ok ()
  ∧ EnvironmentManager.check ⟨Schema.object [("PORT", FieldType.str, none)]⟩
        (fun _ => none) = Except.error (EnvError.missingVars ["PORT"]) := by
  exact ⟨rfl, rfl⟩

/-- Claim C3 counterexample: the schema `{PORT: z.string().default("8016")}`
with `PORT` absent from the snapshot makes `check()` report `PORT` as
missing, refuting the claim that a defaulted field is never reported. -/
theorem c3_counterexample_default_reported_missing :
    EnvironmentManager.check
        ⟨Schema.object [("PORT", FieldType.str, some "8016")]⟩ (fun _ => none)
      = Except.error (EnvError.missingVars ["PORT"]) := by
  exact rfl

/-- Claim C5: on a schema that is not a `ZodObject`, `check()` throws
the fixed configuration message `Schema must be an object type
(z.object()).`, and its outcome does not depend on the snapshot. -/
theorem c5_nonobject_check_fixed_error (accepts : Env → Bool) (env env2 : Env) :
    EnvironmentManager.check ⟨Schema.nonObject accepts⟩ env
        = Except.error EnvError.schemaNotObject
  ∧ EnvError.render EnvError.schemaNotObject
        = "Schema must be an object type (z.object())."
  ∧ EnvironmentManager.check ⟨Schema.nonObject accepts⟩ env
        = EnvironmentManager.check ⟨Schema.nonObject accepts⟩ env2 := by
  exact ⟨rfl, rfl, rfl⟩

/-- Claim C7: a second `getEnv()` call in sequence, with nothing
mutating the snapshot in between, returns a value equal to the first
call; and each call computes its result from the live snapshot it is
given (the manager carries no cache: its only state is the schema). -/
theorem c7_getEnv_idempotent_no_cache (st : PState) :
    (getEnvS st).1 = (getEnvS (getEnvS st).2).1
  ∧ ∀ env2 : Env, (getEnvS (PState.mk env2 st.mgr)).1
      = EnvironmentManager.getEnv st.mgr env2 := by
  exact ⟨rfl, fun _ => rfl⟩

/-- Claim C8: `check()`, `getEnv()` and construction leave the ambient
state — the process environment and the stored schema of any existing
manager — unchanged, on the success and the error path alike. -/
theorem c8_no_observable_mutation (st : PState) (sch : Schema) :
    (checkS st).2 = st
  ∧ (getEnvS st).2 = st
  ∧ (constructS sch st).2 = st := by
  exact ⟨rfl, rfl, rfl⟩

/-- Claim C2: on an object schema, `check()` succeeds exactly when no
declared key is absent or empty in the snapshot, and when it throws, the
message is the failure marker followed by exactly the missing or empty
declared keys, comma-joined. -/
theorem c2_check_missing_iff (fields : List SField) (env : Env) :
    (EnvironmentManager.check ⟨Schema.object fields⟩ env = Except.ok ()
        ↔ ∀ k ∈ fields.map Prod.fst, isMissingKey env k = false)
  ∧ (∀ e, EnvironmentManager.check ⟨Schema.object fields⟩ env = Except.error e →
      ∃ L, e = EnvError.missingVars L
        ∧ EnvError.render e
            = "❌ Failed - Missing env vars - " ++ String.intercalate ", " L
        ∧ ∀ k, k ∈ L ↔ (k ∈ fields.map Prod.fst ∧ isMissingKey env k = true)) := by
  simp only [check_object_eq]
  constructor
  · split
    next hpos =>
      constructor
      · intro h; cases h
      · intro hall
        exfalso
        have hnil : (fields.map Prod.fst).filter (fun k => isMissingKey env k) = [] :=
          List.filter_eq_nil_iff.mpr (fun a ha => by simp [hall a ha])
        rw [hnil] at hpos
        cases hpos
    next hneg =>
      have hnil : (fields.map Prod.fst).filter (fun k => isMissingKey env k) = [] := by
        have : ((fields.map Prod.fst).filter (fun k => isMissingKey env k)).length = 0 :=
          Nat.eq_zero_of_not_pos hneg
        exact List.length_eq_zero.mp this
      constructor
      · intro _ k hk
        have := List.filter_eq_nil_iff.mp hnil k hk
        simpa using this
      · intro _; rfl
  · split
    next hpos =>
      intro e he
      injection he with h1
      refine ⟨(fields.map Prod.fst).filter (fun k => isMissingKey env k), h1.symm, ?_, ?_⟩
      · rw [← h1]; rfl
      · intro k
        exact List.mem_filter
    next hneg =>
      intro e he
      cases he

/-- Claim C2 witness: on the three-field fixture with `A` absent, `B`
non-empty and `C` empty, `check()` throws listing exactly `A, C`. -/
theorem c2_check_missing_iff_witness :
    EnvironmentManager.check ⟨Schema.object fieldsABC⟩ envABC
      = Except.error (EnvError.missingVars ["A", "C"])
  ∧ ∃ L, EnvError.missingVars ["A", "C"] = EnvError.missingVars L
      ∧ EnvError.render (EnvError.missingVars ["A", "C"])
          = "❌ Failed - Missing env vars - " ++ String.intercalate ", " L
      ∧ ∀ k, k ∈ L ↔ (k ∈ fieldsABC.map Prod.fst ∧ isMissingKey envABC k = true) :=
  ⟨rfl, (c2_check_missing_iff fieldsABC envABC).2
    (EnvError.missingVars ["A", "C"]) rfl⟩

/-- Claim C3 amended: a declared field with a default value and an
absent key is still reported as missing by `check()` (its name appears
in the thrown listing); it is the full-validation pass of construction
and `getEnv()` that substitutes the declared default for the absent raw
value instead of failing on presence. -/
theorem c3_amended_default_reported_missing (fields : List SField) (env : Env)
    (k : String) (ft : FieldType) (d : String)
    (hmem : (k, ft, some d) ∈ fields) (habs : env k = none) :
    (∃ L, EnvironmentManager.check ⟨Schema.object fields⟩ env
        = Except.error (EnvError.missingVars L) ∧ k ∈ L)
  ∧ parseField ft (some d) (env k) = parseType ft d := by
  have hmiss : isMissingKey env k = true := by simp [isMissingKey, habs]
  have hkmem : k ∈ fields.map Prod.fst :=
    List.mem_map.mpr ⟨(k, ft, some d), hmem, rfl⟩
  have hkfil : k ∈ (fields.map Prod.fst).filter (fun k => isMissingKey env k) :=
    List.mem_filter.mpr ⟨hkmem, hmiss⟩
  have hpos : 0 < ((fields.map Prod.fst).filter (fun k => isMissingKey env k)).length :=
    List.length_pos.mpr (List.ne_nil_of_mem hkfil)
  refine ⟨⟨_, ?_, hkfil⟩, by rw [habs]; rfl⟩
  rw [check_object_eq, if_pos hpos]

/-- Claim C3 amended witness: with the schema
`{PORT: z.string().default("8016")}` and an empty snapshot, `check()`
throws and lists `PORT`, while the validation pass parses the default. -/
theorem c3_amended_default_reported_missing_witness :
    (∃ L, EnvironmentManager.check
        ⟨Schema.object [("PORT", FieldType.str, some "8016")]⟩ (fun _ => none)
      = Except.error (EnvError.missingVars L) ∧ "PORT" ∈ L)
  ∧ parseField FieldType.str (some "8016") none = parseType FieldType.str "8016" :=
  c3_amended_default_reported_missing [("PORT", FieldType.str, some "8016")]
    (fun _ => none) "PORT" FieldType.str "8016" (List.mem_cons_self _ _) rfl

/-- Claim C10: when `check()` throws the missing-vars error, the listed
names form a sublist of the declared field names, so they appear in
schema declaration order. -/
theorem c10_missing_listed_in_declaration_order (fields : List SField) (env : Env)
    (L : List String)
    (h : EnvironmentManager.check ⟨Schema.object fields⟩ env
          = Except.error (EnvError.missingVars L)) :
    List.Sublist L (fields.map Prod.fst) := by
  rw [check_object_eq] at h
  split at h
  · injection h with h1
    injection h1 with h2
    rw [← h2]
    exact List.filter_sublist _
  · cases h

/-- Claim C10 witness: on the three-field fixture the listed missing
names `A, C` form a sublist of the declared order `A, B, C`. -/
theorem c10_missing_listed_in_declaration_order_witness :
    List.Sublist ["A", "C"] (fieldsABC.map Prod.fst) :=
  c10_missing_listed_in_declaration_order fieldsABC envABC ["A", "C"] rfl

/-- The constructor succeeds, returning the manager holding the schema,
whenever `safeParse` succeeds. -/
theorem construct_ok (s : Schema) (env : Env) (d : ParsedData)
    (h : safeParse s env = Except.ok d) :
    EnvironmentManager.construct s env = Except.ok ⟨s⟩ := by
  simp only [EnvironmentManager.construct, EnvironmentManager.validateEnv, h]

/-- The constructor throws the invalid-environment error carrying the
issues whenever `safeParse` fails. -/
theorem construct_error (s : Schema) (env : Env) (issues : List String)
    (h : safeParse s env = Except.error issues) :
    EnvironmentManager.construct s env
      = Except.error (EnvError.invalidEnv issues) := by
  simp only [EnvironmentManager.construct, EnvironmentManager.validateEnv, h]

/-- `getEnv()` returns the parsed data whenever `safeParse` succeeds. -/
theorem getEnv_ok (s : Schema) (env : Env) (d : ParsedData)
    (h : safeParse s env = Except.ok d) :
    EnvironmentManager.getEnv ⟨s⟩ env = Except.ok d := by
  simp only [EnvironmentManager.getEnv, h]

/-- `getEnv()` throws the invalid-environment error carrying the issues
whenever `safeParse` fails. -/
theorem getEnv_error (s : Schema) (env : Env) (issues : List String)
    (h : safeParse s env = Except.error issues) :
    EnvironmentManager.getEnv ⟨s⟩ env
      = Except.error (EnvError.invalidEnv issues) := by
  simp only [EnvironmentManager.getEnv, h]

/-- A name is collected among the issues of zod object parsing exactly
when it names a declared field whose parse fails. -/
theorem parseFields_errs_mem (fields : List SField) (env : Env) (k : String) :
    k ∈ (parseFields fields env).1
      ↔ ∃ f ∈ fields, f.1 = k ∧ parseField f.2.1 f.2.2 (env f.1) = none := by
  induction fields with
  | nil => simp [parseFields]
  | cons f rest ih =>
      cases hf : parseField f.2.1 f.2.2 (env f.1) with
      | some v =>
          simp only [parseFields, hf]
          rw [ih]
          constructor
          · rintro ⟨g, hg, hgk, hge⟩
            exact ⟨g, List.mem_cons_of_mem _ hg, hgk, hge⟩
          · rintro ⟨g, hg, hgk, hge⟩
            rcases List.mem_cons.mp hg with hgf | hg2
            · subst hgf; rw [hf] at hge; cases hge
            · exact ⟨g, hg2, hgk, hge⟩
      | none =>
          simp only [parseFields, hf, List.mem_cons]
          rw [ih]
          constructor
          · rintro (hk | ⟨g, hg, hgk, hge⟩)
            · exact ⟨f, Or.inl rfl, hk.symm, hf⟩
            · exact ⟨g, Or.inr hg, hgk, hge⟩
          · rintro ⟨g, hgf | hg2, hgk, hge⟩
            · subst hgf; exact Or.inl hgk.symm
            · exact Or.inr ⟨g, hg2, hgk, hge⟩

/-- When every declared field parses, zod object parsing collects no
issue and returns the declared keys in order, each bound to the parse
result of its field. -/
theorem parseFields_all_ok (fields : List SField) (env : Env)
    (h : ∀ f ∈ fields, (parseField f.2.1 f.2.2 (env f.1)).isSome = true) :
    (parseFields fields env).1 = []
  ∧ (parseFields fields env).2.map Prod.fst = fields.map Prod.fst
  ∧ List.Forall₂ (fun (f : SField) (kv : String × Value) =>
      kv.1 = f.1 ∧ parseField f.2.1 f.2.2 (env f.1) = some kv.2)
      fields (parseFields fields env).2 := by
  induction fields with
  | nil => exact ⟨rfl, rfl, List.Forall₂.nil⟩
  | cons f rest ih =>
      obtain ⟨v, hv⟩ := Option.isSome_iff_exists.mp (h f (List.mem_cons_self _ _))
      obtain ⟨h1, h2, h3⟩ := ih (fun g hg => h g (List.mem_cons_of_mem _ hg))
      simp only [parseFields, hv]
      exact ⟨h1, by simp [h2], List.Forall₂.cons ⟨rfl, hv⟩ h3⟩

/-- Claim C4: when every declared field of an object schema is present
and satisfies its type and transform, or absent with a declared default,
`getEnv()` returns the mapping whose keys are exactly the declared keys
in order, each bound to the result of applying the field transform or
default to the raw string. -/
theorem c4_getEnv_returns_transformed_mapping (fields : List SField) (env : Env)
    (h : ∀ f ∈ fields, (parseField f.2.1 f.2.2 (env f.1)).isSome = true) :
    ∃ kvs, EnvironmentManager.getEnv ⟨Schema.object fields⟩ env
        = Except.ok (ParsedData.obj kvs)
      ∧ kvs.map Prod.fst = fields.map Prod.fst
      ∧ List.Forall₂ (fun (f : SField) (kv : String × Value) =>
          kv.1 = f.1 ∧ parseField f.2.1 f.2.2 (env f.1) = some kv.2)
          fields kvs := by
  obtain ⟨h1, h2, h3⟩ := parseFields_all_ok fields env h
  refine ⟨(parseFields fields env).2, ?_, h2, h3⟩
  refine getEnv_ok _ _ _ ?_
  simp [safeParse, h1]

/-- Claim C4 witness: on the README scenario fixture — `PORT` defaulted
to "8016" and absent, `DEBUG` transformed to a boolean and bound to
"true" — `getEnv()` returns `PORT` bound to the string "8016" and
`DEBUG` bound to the boolean `true`. -/
theorem c4_getEnv_returns_transformed_mapping_witness :
    (∀ f ∈ fieldsPD, (parseField f.2.1 f.2.2 (envPD f.1)).isSome = true)
  ∧ (∃ kvs, EnvironmentManager.getEnv ⟨Schema.object fieldsPD⟩ envPD
        = Except.ok (ParsedData.obj kvs)
      ∧ kvs.map Prod.fst = fieldsPD.map Prod.fst
      ∧ List.Forall₂ (fun (f : SField) (kv : String × Value) =>
          kv.1 = f.1 ∧ parseField f.2.1 f.2.2 (envPD f.1) = some kv.2)
          fieldsPD kvs)
  ∧ EnvironmentManager.getEnv ⟨Schema.object fieldsPD⟩ envPD
      = Except.ok (ParsedData.obj
          [("PORT", Value.str "8016"), ("DEBUG", Value.bool true)]) :=
  ⟨by decide, c4_getEnv_returns_transformed_mapping fieldsPD envPD (by decide), rfl⟩

/-- Claim C6: construction and `getEnv()` run the identical validation:
on any schema and snapshot they succeed together and fail together with
the same error value; every such error is the invalid-environment error
whose message carries the serialized issue list; and on an object schema
that issue list names exactly the declared fields whose parse fails, so
validation is all-or-nothing and no partial result escapes. -/
theorem c6_construct_getEnv_same_validation (s : Schema) (env : Env) :
    ((∃ m, EnvironmentManager.construct s env = Except.ok m)
        ↔ ∃ d, EnvironmentManager.getEnv ⟨s⟩ env = Except.ok d)
  ∧ (∀ e, EnvironmentManager.construct s env = Except.error e
        ↔ EnvironmentManager.getEnv ⟨s⟩ env = Except.error e)
  ∧ (∀ e, EnvironmentManager.construct s env = Except.error e →
      ∃ issues, e = EnvError.invalidEnv issues
        ∧ EnvError.render e
            = "Invalid environment variables: " ++ String.intercalate "; " issues)
  ∧ (∀ fields issues, s = Schema.object fields →
      EnvironmentManager.construct s env = Except.error (EnvError.invalidEnv issues) →
      ∀ k, k ∈ issues
        ↔ ∃ f ∈ fields, f.1 = k ∧ parseField f.2.1 f.2.2 (env f.1) = none) := by
  cases hsp : safeParse s env with
  | ok d =>
      have hc := construct_ok s env d hsp
      have hg := getEnv_ok s env d hsp
      refine ⟨?_, ?_, ?_, ?_⟩
      · rw [hc, hg]
        constructor
        · intro _; exact ⟨d, rfl⟩
        · intro _; exact ⟨⟨s⟩, rfl⟩
      · intro e
        rw [hc, hg]
        simp
      · intro e he
        rw [hc] at he
        cases he
      · intro fields issues hs hce
        rw [hc] at hce
        cases hce
  | error issues =>
      have hc := construct_error s env issues hsp
      have hg := getEnv_error s env issues hsp
      refine ⟨?_, ?_, ?_, ?_⟩
      · rw [hc, hg]
        constructor <;> (rintro ⟨x, hx⟩; cases hx)
      · intro e
        rw [hc, hg]
        constructor
        · intro h
          injection h with h1
          rw [← h1]
        · intro h
          injection h with h1
          rw [← h1]
      · intro e he
        rw [hc] at he
        injection he with h1
        exact ⟨issues, h1.symm, by rw [← h1]; rfl⟩
      · intro fields issues2 hs hce k
        subst hs
        rw [hc] at hce
        injection hce with h1
        injection h1 with h2
        subst h2
        simp only [safeParse] at hsp
        split at hsp
        · cases hsp
        next hne =>
          injection hsp with h3
          rw [← h3]
          exact parseFields_errs_mem fields env k

/-- Claim C6 witness: with the schema `{HOST: z.string()}` and an empty
snapshot, construction and `getEnv()` fail with the same
invalid-environment error whose issue list is exactly `HOST`. -/
theorem c6_construct_getEnv_same_validation_witness :
    EnvironmentManager.construct (Schema.object fieldsHOST) (fun _ => none)
        = Except.error (EnvError.invalidEnv ["HOST"])
  ∧ EnvironmentManager.getEnv ⟨Schema.object fieldsHOST⟩ (fun _ => none)
        = Except.error (EnvError.invalidEnv ["HOST"])
  ∧ ("HOST" ∈ ["HOST"]
        ↔ ∃ f ∈ fieldsHOST, f.1 = "HOST"
            ∧ parseField f.2.1 f.2.2 ((fun _ => none : Env) f.1) = none) :=
  ⟨rfl,
   ((c6_construct_getEnv_same_validation (Schema.object fieldsHOST)
      (fun _ => none)).2.1 (EnvError.invalidEnv ["HOST"])).mp rfl,
   (c6_construct_getEnv_same_validation (Schema.object fieldsHOST)
      (fun _ => none)).2.2.2 fieldsHOST ["HOST"] rfl rfl "HOST"⟩

/-- Claim C9: only `check()` imposes the object-shape requirement —
construction and `getEnv()` never throw the configuration error, and on
a non-object schema whose validation of the snapshot succeeds they both
succeed while `check()` on the same manager throws the configuration
error. -/
theorem c9_shape_requirement_only_in_check (s : Schema) (env : Env) :
    (∀ e, EnvironmentManager.construct s env = Except.error e →
        e ≠ EnvError.schemaNotObject)
  ∧ (∀ e, EnvironmentManager.getEnv ⟨s⟩ env = Except.error e →
        e ≠ EnvError.schemaNotObject)
  ∧ (∀ accepts, s = Schema.nonObject accepts → accepts env = true →
      EnvironmentManager.construct s env = Except.ok ⟨s⟩
      ∧ EnvironmentManager.getEnv ⟨s⟩ env = Except.ok ParsedData.other
      ∧ EnvironmentManager.check ⟨s⟩ env = Except.error EnvError.schemaNotObject) := by
  refine ⟨?_, ?_, ?_⟩
  · intro e he
    cases hsp : safeParse s env with
    | ok d => rw [construct_ok s env d hsp] at he; cases he
    | error issues =>
        rw [construct_error s env issues hsp] at he
        injection he with h1
        rw [← h1]
        simp
  · intro e he
    cases hsp : safeParse s env with
    | ok d => rw [getEnv_ok s env d hsp] at he; cases he
    | error issues =>
        rw [getEnv_error s env issues hsp] at he
        injection he with h1
        rw [← h1]
        simp
  · intro accepts hs ha
    subst hs
    refine ⟨?_, ?_, rfl⟩
    · exact construct_ok _ _ ParsedData.other (by simp [safeParse, ha])
    · exact getEnv_ok _ _ ParsedData.other (by simp [safeParse, ha])

/-- Claim C9 witness: a non-object schema accepting every snapshot makes
construction and `getEnv()` succeed while `check()` throws the
configuration error. -/
theorem c9_shape_requirement_only_in_check_witness :
    EnvironmentManager.construct (Schema.nonObject (fun _ => true)) (fun _ => none)
        = Except.ok ⟨Schema.nonObject (fun _ => true)⟩
  ∧ EnvironmentManager.getEnv ⟨Schema.nonObject (fun _ => true)⟩ (fun _ => none)
        = Except.ok ParsedData.other
  ∧ EnvironmentManager.check ⟨Schema.nonObject (fun _ => true)⟩ (fun _ => none)
        = Except.error EnvError.schemaNotObject :=
  (c9_shape_requirement_only_in_check (Schema.nonObject (fun _ => true))
    (fun _ => none)).2.2 (fun _ => true) rfl rfl
